import Mathlib

/-!
Shallow embedding of the fondat-salesforce client (src/fondat/salesforce),
covering the authenticated request layer (client.py), the bulk job
lifecycle and page iterator (bulk.py), the query-results endpoint
post-processing (jobs.py) and the field-schema construction (sobjects.py
and bulk.py).  Network I/O is modelled by explicit traces: the sequence of
HTTP response statuses an attempt receives, the sequence of job states
successive polls observe, and the page returned for each cursor value.
-/

namespace FondatSalesforce

/-- Python exceptions that the modelled code can raise, flattened into one
type.  `unauthorized` is `fondat.error.UnauthorizedError` (HTTP 401);
`httpStatus` covers the other `fondat.error` classes produced by
`error_for_status` for 4xx/5xx; `internalServer` is the
`InternalServerError` raised for a status outside 200–599; `timeout` is
`asyncio.exceptions.TimeoutError`; `runtime`, `valueError`, `typeError`,
`keyError`, `attributeError` and `indexError` are the built-in Python
exception kinds with their message where one is formatted. -/
inductive Err where
  | unauthorized
  | httpStatus (status : Nat)
  | internalServer (status : Nat)
  | notFound
  | timeout
  | runtime (msg : String)
  | valueError (msg : String)
  | typeError (msg : String)
  | keyError (key : String)
  | attributeError
  | indexError
deriving DecidableEq, Repr

/-! ## client.py — `Client.request` -/

instance {ε α : Type} [DecidableEq ε] [DecidableEq α] : DecidableEq (Except ε α)
  | .ok a, .ok b =>
      if h : a = b then .isTrue (congrArg Except.ok h)
      else .isFalse (fun hh => h (Except.ok.inj hh))
  | .error a, .error b =>
      if h : a = b then .isTrue (congrArg Except.error h)
      else .isFalse (fun hh => h (Except.error.inj hh))
  | .ok _, .error _ => .isFalse (fun hh => Except.noConfusion hh)
  | .error _, .ok _ => .isFalse (fun hh => Except.noConfusion hh)

/-- An OAuth token, as used by `Client.request` (`fondat.salesforce.oauth.Token`:
only the two attributes the client reads). -/
structure Token where
  access_token : String
  instance_url : String
deriving DecidableEq, Repr

/-- `fondat.error.error_for_status`, restricted to what `Client.request`
distinguishes: status 401 maps to `UnauthorizedError`, every other 4xx/5xx
status to some other error class carrying the status. -/
def errorForStatus (status : Nat) : Err :=
  if status = 401 then .unauthorized else .httpStatus status

/-- The status classification inside one HTTP attempt of `Client.request`:
400–599 raises `error_for_status(status)`, 200–299 yields the response,
anything else raises `InternalServerError`. -/
def classifyStatus (status : Nat) : Except Err Nat :=
  if 400 ≤ status ∧ status ≤ 599 then .error (errorForStatus status)
  else if 200 ≤ status ∧ status ≤ 299 then .ok status
  else .error (.internalServer status)

/-- Observable outcome of one `Client.request` call: the result (the 2xx
status yielded, or the exception), the number of HTTP attempts sent, the
number of `authenticate` invocations, and the token held afterwards. -/
structure ReqOutcome where
  result : Except Err Nat
  attempts : Nat
  authCalls : Nat
  token : Option Token
deriving DecidableEq, Repr

/-- `Client.request` with the `for retry in range(2)` loop unrolled.
`auth i` is the token returned by the i-th `authenticate()` call and
`resp i` the HTTP status of the i-th attempt; `token0` is the token held
on entry.  First iteration: authenticate if no token is held, send, and on
success yield; on `UnauthorizedError` clear the token and run the second
iteration, which authenticates again, resends, and re-raises any
`UnauthorizedError`; every other exception propagates at once. -/
def requestSim (auth : Nat → Token) (resp : Nat → Nat) (token0 : Option Token) :
    ReqOutcome :=
  let auths0 : Nat := match token0 with | some _ => 0 | none => 1
  let tok0 : Token := match token0 with | some t => t | none => auth 0
  match classifyStatus (resp 0) with
  | .ok s => ⟨.ok s, 1, auths0, some tok0⟩
  | .error .unauthorized =>
      let tok1 : Token := auth auths0
      match classifyStatus (resp 1) with
      | .ok s => ⟨.ok s, 2, auths0 + 1, some tok1⟩
      | .error e => ⟨.error e, 2, auths0 + 1, some tok1⟩
  | .error e => ⟨.error e, 1, auths0, some tok0⟩

/-! ## bulk.py — `SObjectQuery._await_complete` -/

/-- The `while (state := ...) in {"UploadComplete", "InProgress"}` test. -/
def isIncomplete (s : String) : Bool :=
  s = "UploadComplete" || s = "InProgress"

/-- Python truthiness of the `Optional[int]` timeout in
`if self.timeout and ...`: `None` and `0` are falsy. -/
def timeoutTruthy : Option Nat → Bool
  | none => false
  | some n => n ≠ 0

/-- Result of running `_await_complete` against a finite trace of polled
job states: the outcome (`none` when the trace was exhausted with the loop
still polling) and the list of `asyncio.sleep` durations performed. -/
structure AwaitResult where
  outcome : Option (Except Err Unit)
  sleeps : List Nat
deriving DecidableEq, Repr

/-- The polling loop of `_await_complete`.  `elapsed` is `time() - start`
(polls are instantaneous; only `asyncio.sleep` advances the clock) and
`sleep` the current backoff.  Each iteration polls one state from the
trace; while the state is incomplete it raises `TimeoutError` when the
timeout is truthy and `elapsed >= timeout`, otherwise sleeps and doubles
the backoff capped at 60.  On a non-incomplete state the loop exits:
`JobComplete` returns; anything else raises
`RuntimeError("unexpected job state: ...")`. -/
def awaitAux (timeout : Option Nat) (elapsed sleep : Nat) :
    List String → AwaitResult
  | [] => ⟨none, []⟩
  | s :: rest =>
      if isIncomplete s then
        if timeoutTruthy timeout && decide (timeout.getD 0 ≤ elapsed) then
          ⟨some (.error .timeout), []⟩
        else
          let r := awaitAux timeout (elapsed + sleep) (min (sleep * 2) 60) rest
          ⟨r.outcome, sleep :: r.sleeps⟩
      else if s = "JobComplete" then ⟨some (.ok ()), []⟩
      else ⟨some (.error (.runtime ("unexpected job state: " ++ s))), []⟩

/-- `_await_complete`: `start = time(); sleep = 1; ...`. -/
def awaitComplete (timeout : Option Nat) (states : List String) : AwaitResult :=
  awaitAux timeout 0 1 states

/-! ## bulk.py — `SObjectQuery.__aexit__` -/

/-- Observable outcome of `__aexit__`: the exception it let escape, if
any, and how many `delete` calls it attempted. -/
structure ExitResult where
  raised : Option Err
  deleteCalls : Nat
deriving DecidableEq, Repr

/-- `SObjectQuery.__aexit__` on a trace.  `resultsBegun` is
`self.results is not None`; `states` the job states the contained
`_await_complete` would poll; `del` the outcome of `self.query.delete()`.
If results were never begun it runs `_await_complete` under
`suppress(asyncio.exceptions.TimeoutError)` — so a `TimeoutError` is
swallowed but any other exception escapes before the delete is reached —
and then runs `delete` under `suppress(Exception)`, which swallows every
delete failure.  Returns `none` when the completion wait never settled
within the supplied trace. -/
def aexitSim (resultsBegun : Bool) (timeout : Option Nat) (states : List String)
    (_del : Except Err Unit) : Option ExitResult :=
  if resultsBegun then some ⟨none, 1⟩
  else
    match (awaitComplete timeout states).outcome with
    | none => none
    | some (.ok ()) => some ⟨none, 1⟩
    | some (.error Err.timeout) => some ⟨none, 1⟩
    | some (.error e) => some ⟨some e, 0⟩

/-! ## jobs.py — `QueryResource.results` -/

/-- One page of query results (`QueryResultsPage`): the CSV-decoded rows
and the optional opaque cursor. -/
structure Page where
  items : List (List String)
  cursor : Option String
deriving DecidableEq, Repr

/-- The response post-processing of `QueryResource.results` after
`client.request` has yielded a 2xx response: `status` the response
status, `rows` the CSV-decoded body, `locator` the value of the
`Sforce-Locator` response header (`none` when the header is absent).
Status 204 raises `NotFoundError`; otherwise the page is built with
`cursor=locator.encode() if locator != "null" else None` — when the
header is absent, `locator` is Python `None`, the `!= "null"` test is
true, and `None.encode()` raises `AttributeError`. -/
def resultsEndpoint (status : Nat) (rows : List (List String))
    (locator : Option String) : Except Err Page :=
  if status = 204 then .error .notFound
  else
    match locator with
    | some s => if s = "null" then .ok ⟨rows, none⟩ else .ok ⟨rows, some s⟩
    | none => .error .attributeError

/-! ## sobjects.py — `sobject_field_type` -/

/-- The semantic value kinds appearing as values of `_type_mappings`
(`Any` is `any`). -/
inductive SemType where
  | str
  | int
  | float
  | bool
  | bytes
  | date
  | datetime
  | any
  | address
  | location
deriving DecidableEq, Repr

/-- `_type_mappings` from sobjects.py: type tag → semantic type. -/
def typeMappings (tag : String) : Option SemType :=
  match tag with
  | "address" => some .address
  | "anyType" => some .any
  | "base64" => some .bytes
  | "boolean" => some .bool
  | "combobox" => some .str
  | "complexvalue" => some .any
  | "currency" => some .float
  | "date" => some .date
  | "datetime" => some .datetime
  | "double" => some .float
  | "email" => some .str
  | "encryptedstring" => some .str
  | "id" => some .str
  | "int" => some .int
  | "json" => some .any
  | "location" => some .location
  | "long" => some .int
  | "multipicklist" => some .str
  | "percent" => some .float
  | "phone" => some .str
  | "picklist" => some .str
  | "reference" => some .str
  | "time" => some .str
  | "string" => some .str
  | "textarea" => some .str
  | "url" => some .str
  | _ => none

/-- The attributes of `sobjects.Field` that `sobject_field_type` and
`SObjectQuery.__init__` read (the datacls has many more, all unused by
this logic). -/
structure FieldMeta where
  name : String
  type : String
  length : Nat
  nillable : Bool
deriving DecidableEq, Repr

/-- The Python type `sobject_field_type` returns, decomposed:
`Optional[base]` possibly `Annotated[..., MaxLen(n)]`.  `nullable` records
the `Optional[...]` wrapper. -/
structure PyType where
  base : SemType
  maxLen : Option Nat
  nullable : Bool
deriving DecidableEq, Repr

/-- `sobject_field_type`: look the type tag up in `_type_mappings`
(raising `TypeError` on a miss), attach `MaxLen(field.length)` when
`field.length != 0`, and wrap the result in `Optional[...]`
unconditionally. -/
def sobject_field_type (f : FieldMeta) : Except Err PyType :=
  match typeMappings f.type with
  | none => .error (.typeError ("unsupported field type: " ++ f.type))
  | some t => .ok ⟨t, if f.length ≠ 0 then some f.length else none, true⟩

/-- Modelled from the spec (§4.4): the spec's notion of a "bounded
string-like type", used only to compare the spec's max-length rule with
the code's.  Of the semantic types, only the string kind is string-like. -/
def specStringLike : SemType → Bool
  | .str => true
  | _ => false

/-! ## bulk.py — `SObjectQuery.__init__` schema construction -/

/-- `_exclude_types = {"address", "location"}`. -/
def excludeTypes : List String := ["address", "location"]

/-- `indexed = {field.name: field for field in sobject.fields}` — a later
field with the same name overwrites an earlier one. -/
def indexedLookup (sfields : List FieldMeta) (name : String) : Option FieldMeta :=
  sfields.reverse.find? (fun f => f.name = name)

/-- The `for name in fields` validation loop of `SObjectQuery.__init__`:
a name missing from the index raises
`ValueError("unknown field: ...")`; a field of excluded type raises
`ValueError("cannot query ... type field: ...")`. -/
def checkFields (sfields : List FieldMeta) : List String → Except Err Unit
  | [] => .ok ()
  | n :: rest =>
      match indexedLookup sfields n with
      | none => .error (.valueError ("unknown field: " ++ n))
      | some f =>
          if f.type ∈ excludeTypes then
            .error (.valueError ("cannot query " ++ f.type ++ " type field: " ++ n))
          else checkFields sfields rest

/-- Python-dict insertion: overwrite in place when the key is present,
append otherwise. -/
def dictInsert (l : List (String × PyType)) (k : String) (v : PyType) :
    List (String × PyType) :=
  if l.any (fun p => p.1 = k) then
    l.map (fun p => if p.1 = k then (k, v) else p)
  else l ++ [(k, v)]

/-- The dict comprehension
`{f: sobject_field_type(indexed[f]) for f in fields}`, evaluated left to
right over the requested names into the accumulated dict; `indexed[f]`
raises `KeyError` on a miss and `sobject_field_type` may raise
`TypeError`. -/
def buildTdGo (sfields : List FieldMeta) (acc : List (String × PyType)) :
    List String → Except Err (List (String × PyType))
  | [] => .ok acc
  | n :: rest =>
      match indexedLookup sfields n with
      | none => .error (.keyError n)
      | some meta =>
          match sobject_field_type meta with
          | .error e => .error e
          | .ok t => buildTdGo sfields (dictInsert acc n t) rest

/-- The dict comprehension of `SObjectQuery.__init__`, started empty. -/
def buildTd (sfields : List FieldMeta) (fields : List String) :
    Except Err (List (String × PyType)) :=
  buildTdGo sfields [] fields

/-- The schema-building part of `SObjectQuery.__init__`: default `fields`
to all non-excluded catalog fields when `None`; raise
`ValueError("you must query at least one field")` when empty; validate
each requested name; then build the `TypedDict` entry map. -/
def buildSchema (sfields : List FieldMeta) (fieldsArg : Option (List String)) :
    Except Err (List (String × PyType)) :=
  let fields := match fieldsArg with
    | none => (sfields.filter (fun f => decide (f.type ∉ excludeTypes))).map (·.name)
    | some fs => fs
  if fields.length = 0 then .error (.valueError "you must query at least one field")
  else
    match checkFields sfields fields with
    | .error e => .error e
    | .ok () => buildTd sfields fields

/-! ## bulk.py — `SObjectQuery._next_page` / `__anext__` -/

/-- Mutable iterator state of `SObjectQuery`: `results` is the deque
(`none` before the first fetch), `cursor` the last page's cursor, and
`header` the row `popleft`-ed to build the codec. -/
structure IterState where
  results : Option (List (List String))
  cursor : Option String
  header : Option (List String)
deriving DecidableEq, Repr

/-- The state of a fresh `SObjectQuery` (`results = cursor = None`). -/
def initIterState : IterState := ⟨none, none, none⟩

/-- Abstract model of `typeddict_codec(self.td, header).decode(row)`:
associate each header column name with the row's value in order (the
concrete value decoding belongs to the external fondat.csv codec). -/
def decodeRec (header row : List String) : List (String × String) :=
  header.zip row

/-- `SObjectQuery._next_page`: fetch the page for the current cursor,
replace the deque and the cursor, then `popleft` the page's first row to
build the codec — raising `IndexError` when the page has no rows. -/
def nextPage (fetch : Option String → Page) (st : IterState) :
    Except Err IterState :=
  let page := fetch st.cursor
  match page.items with
  | [] => .error .indexError
  | h :: rest => .ok ⟨some rest, page.cursor, some h⟩

/-- `SObjectQuery.__anext__` on a trace.  When `results` is `None`, first
run `_await_complete` (against `jobStates` with the configured timeout);
then fetch a page when `results` is `None` or empty with a cursor
pending; then stop the iteration when the deque is empty with no cursor;
otherwise `popleft` and decode.  An empty deque with a cursor still set
after the fetch hits `popleft` on an empty deque (`IndexError`).  The
outer `none` means the completion wait never settled in the trace;
`some (.ok none)` is `StopAsyncIteration`. -/
def anext (fetch : Option String → Page) (timeout : Option Nat)
    (jobStates : List String) (st : IterState) :
    Option (Except Err (Option (List (String × String) × IterState))) :=
  let awaited : Option (Except Err Unit) :=
    match st.results with
    | none => (awaitComplete timeout jobStates).outcome
    | some _ => some (.ok ())
  match awaited with
  | none => none
  | some (.error e) => some (.error e)
  | some (.ok ()) =>
      let fetched : Except Err IterState :=
        match st.results with
        | none => nextPage fetch st
        | some l => if l.isEmpty && st.cursor.isSome then nextPage fetch st else .ok st
      match fetched with
      | .error e => some (.error e)
      | .ok st' =>
          match st'.results with
          | some [] =>
              if st'.cursor.isNone then some (.ok none)
              else some (.error .indexError)
          | some (r :: rest) =>
              some (.ok (some (decodeRec (st'.header.getD []) r,
                { st' with results := some rest })))
          | none => some (.error .indexError)

/-- A two-page results endpoint: the first fetch (no cursor) returns the
rows `p1` with cursor `c`; the fetch for cursor `c` returns the rows `p2`
with no cursor. -/
def twoPageFetch (p1 : List (List String)) (c : String)
    (p2 : List (List String)) : Option String → Page
  | none => ⟨p1, some c⟩
  | some x => if x = c then ⟨p2, none⟩ else ⟨[], none⟩

/-- Drive `__anext__` to exhaustion, collecting the yielded records.
`fuel` bounds the number of `__anext__` calls; `none` means the fuel ran
out or a completion wait never settled. -/
def runIter (fetch : Option String → Page) (timeout : Option Nat)
    (jobStates : List String) :
    Nat → IterState → Option (Except Err (List (List (String × String))))
  | 0, _ => none
  | fuel + 1, st =>
      match anext fetch timeout jobStates st with
      | none => none
      | some (.error e) => some (.error e)
      | some (.ok none) => some (.ok [])
      | some (.ok (some (rec, st'))) =>
          match runIter fetch timeout jobStates fuel st' with
          | none => none
          | some (.error e) => some (.error e)
          | some (.ok recs) => some (.ok (rec :: recs))

/-! ## Helper lemmas -/

theorem awaitAux_some_zero (states : List String) :
    ∀ e sl, awaitAux (some 0) e sl states = awaitAux none e sl states := by
  induction states with
  | nil => intro e sl; rfl
  | cons s rest ih =>
      intro e sl
      cases hs : isIncomplete s <;> simp [awaitAux, hs, timeoutTruthy, ih]

theorem awaitAux_all_incomplete (states : List String)
    (h : ∀ x ∈ states, isIncomplete x = true) :
    ∀ e sl, (awaitAux none e sl states).outcome = none := by
  induction states with
  | nil => intro e sl; rfl
  | cons s rest ih =>
      intro e sl
      have hs : isIncomplete s = true := h s (by simp)
      simp only [awaitAux, hs, timeoutTruthy, Bool.false_and, Bool.if_false_left]
      simp only [if_true]
      exact ih (fun x hx => h x (by simp [hx])) (e + sl) (min (sl * 2) 60)

theorem min_pow_double (k : Nat) :
    min (min (2 ^ k) 60 * 2) 60 = min (2 ^ (k + 1)) 60 := by
  have h2 : 2 ^ (k + 1) = 2 ^ k * 2 := pow_succ 2 k
  rcases le_or_lt (2 ^ k) 60 with h | h
  · rw [min_eq_left h, h2]
  · rw [min_eq_right (le_of_lt h), h2]
    omega

theorem backoff_cons (k n : Nat) :
    min (2 ^ k) 60 :: (List.range n).map (fun i => min (2 ^ (k + 1 + i)) 60) =
    (List.range (n + 1)).map (fun i => min (2 ^ (k + i)) 60) := by
  rw [List.range_succ_eq_map, List.map_cons, List.map_map]
  have hf : ((fun i => min (2 ^ (k + i)) 60) ∘ Nat.succ) =
      (fun i => min (2 ^ (k + 1 + i)) 60) := by
    funext i
    simp only [Function.comp_apply]
    have h : k + Nat.succ i = k + 1 + i := by omega
    rw [h]
  rw [hf]
  simp

theorem awaitAux_backoff (pre : List String) :
    ∀ (k e : Nat) (s : String) (rest : List String),
    (∀ x ∈ pre, isIncomplete x = true) → isIncomplete s = false →
    awaitAux none e (min (2 ^ k) 60) (pre ++ s :: rest) =
      ⟨some (if s = "JobComplete" then .ok ()
             else .error (.runtime ("unexpected job state: " ++ s))),
       (List.range pre.length).map (fun i => min (2 ^ (k + i)) 60)⟩ := by
  induction pre with
  | nil =>
      intro k e s rest _ hs
      simp only [List.nil_append, awaitAux, hs, Bool.false_eq_true, if_false,
        List.length_nil, List.range_zero, List.map_nil]
      by_cases hj : s = "JobComplete" <;> simp [hj]
  | cons p pre ih =>
      intro k e s rest hpre hs
      have hp : isIncomplete p = true := hpre p (by simp)
      simp only [List.cons_append, awaitAux, hp, if_true, timeoutTruthy,
        Bool.false_and, Bool.false_eq_true, if_false, List.append_eq]
      rw [min_pow_double k,
        ih (k + 1) (e + min (2 ^ k) 60) s rest
          (fun x hx => hpre x (by simp [hx])) hs]
      congr 1
      exact backoff_cons k pre.length

theorem awaitAux_timeout (states : List String) :
    ∀ (t e sl : Nat),
    (∀ x ∈ states, isIncomplete x = true) → 0 < sl → sl ≤ 60 → e < t →
    t - e < states.length →
    (awaitAux (some t) e sl states).outcome = some (.error .timeout) ∧
    t ≤ e + (awaitAux (some t) e sl states).sleeps.sum ∧
    (∀ k, k < (awaitAux (some t) e sl states).sleeps.length →
      e + ((awaitAux (some t) e sl states).sleeps.take k).sum < t) ∧
    (∀ x ∈ (awaitAux (some t) e sl states).sleeps, x ≤ 60) := by
  induction states with
  | nil =>
      intro t e sl _ _ _ he hlen
      simp only [List.length_nil] at hlen
      omega
  | cons s rest ih =>
      intro t e sl hinc hsl hsl60 he hlen
      have hs : isIncomplete s = true := hinc s (by simp)
      have hcond : (timeoutTruthy (some t) && decide ((some t).getD 0 ≤ e)) =
          false := by
        simp only [Option.getD_some, timeoutTruthy, Bool.and_eq_false_iff,
          decide_eq_false_iff_not]
        right
        omega
      simp only [awaitAux, hs, if_true, hcond, Bool.false_eq_true, if_false]
      by_cases h2 : e + sl < t
      · have hrest := ih t (e + sl) (min (sl * 2) 60)
          (fun x hx => hinc x (by simp [hx])) (by omega) (by omega) h2
          (by simp only [List.length_cons] at hlen; omega)
        refine ⟨hrest.1, ?_, ?_, ?_⟩
        · simp only [List.sum_cons]
          have := hrest.2.1
          omega
        · intro k hk
          cases k with
          | zero => simpa using he
          | succ j =>
              simp only [List.length_cons, Nat.succ_lt_succ_iff] at hk
              have := hrest.2.2.1 j hk
              simp only [List.take_succ_cons, List.sum_cons]
              omega
        · intro x hx
          rcases List.mem_cons.mp hx with h | h
          · omega
          · exact hrest.2.2.2 x h
      · cases rest with
        | nil =>
            simp only [List.length_cons, List.length_nil] at hlen
            omega
        | cons s2 rest2 =>
            have hs2 : isIncomplete s2 = true := hinc s2 (by simp)
            have hcond2 : (timeoutTruthy (some t) &&
                decide ((some t).getD 0 ≤ e + sl)) = true := by
              simp only [Option.getD_some, timeoutTruthy, Bool.and_eq_true,
                decide_eq_true_eq]
              omega
            simp only [awaitAux, hs2, if_true, hcond2]
            refine ⟨by trivial, by simp; omega, ?_, ?_⟩
            · intro k hk
              simp only [List.length_cons, List.length_nil] at hk
              interval_cases k
              simpa using he
            · intro x hx
              simp only [List.mem_cons, List.not_mem_nil, or_false] at hx
              omega

theorem checkFields_ok (sfields : List FieldMeta) :
    ∀ fields : List String,
    (∀ n ∈ fields, ∃ f, indexedLookup sfields n = some f ∧
      f.type ∉ excludeTypes) →
    checkFields sfields fields = .ok () := by
  intro fields
  induction fields with
  | nil => intro _; rfl
  | cons n rest ih =>
      intro h
      obtain ⟨f, hf, hex⟩ := h n (by simp)
      simp only [checkFields, hf]
      rw [if_neg hex]
      exact ih (fun m hm => h m (by simp [hm]))

theorem checkFields_err (sfields : List FieldMeta) :
    ∀ (fields : List String) (n : String), n ∈ fields →
    (indexedLookup sfields n = none ∨
      ∃ f, indexedLookup sfields n = some f ∧ f.type ∈ excludeTypes) →
    ∃ e, checkFields sfields fields = .error e := by
  intro fields
  induction fields with
  | nil => intro n hn; simp at hn
  | cons m rest ih =>
      intro n hn hbad
      rcases List.mem_cons.mp hn with rfl | hn2
      · rcases hbad with hnone | ⟨f, hf, hex⟩
        · exact ⟨.valueError ("unknown field: " ++ n),
            by simp [checkFields, hnone]⟩
        · exact ⟨.valueError ("cannot query " ++ f.type ++ " type field: " ++ n),
            by simp [checkFields, hf, hex]⟩
      · cases hm : indexedLookup sfields m with
        | none =>
            exact ⟨.valueError ("unknown field: " ++ m),
              by simp [checkFields, hm]⟩
        | some f =>
            by_cases hex : f.type ∈ excludeTypes
            · exact ⟨.valueError ("cannot query " ++ f.type ++
                " type field: " ++ m), by simp [checkFields, hm, hex]⟩
            · obtain ⟨e, he⟩ := ih n hn2 hbad
              exact ⟨e, by simp [checkFields, hm, hex, he]⟩

theorem buildTdGo_ok (sfields : List FieldMeta) :
    ∀ (fields : List String) (acc : List (String × PyType)),
    fields.Nodup →
    (∀ n ∈ fields, ∃ f, indexedLookup sfields n = some f ∧
      (typeMappings f.type).isSome) →
    (∀ n ∈ fields, acc.any (fun p => p.1 = n) = false) →
    ∃ l, buildTdGo sfields acc fields = .ok l ∧
      l.map Prod.fst = acc.map Prod.fst ++ fields := by
  intro fields
  induction fields with
  | nil => intro acc _ _ _; exact ⟨acc, rfl, by simp⟩
  | cons n rest ih =>
      intro acc hnd hgood hacc
      obtain ⟨f, hf, hm⟩ := hgood n (by simp)
      obtain ⟨t, ht⟩ := Option.isSome_iff_exists.mp hm
      obtain ⟨tp, htp⟩ : ∃ tp, sobject_field_type f = .ok tp :=
        ⟨⟨t, if f.length ≠ 0 then some f.length else none, true⟩,
          by unfold sobject_field_type; rw [ht]⟩
      have hins : dictInsert acc n tp = acc ++ [(n, tp)] := by
        simp [dictInsert, hacc n (by simp)]
      have hn_rest : n ∉ rest := (List.nodup_cons.mp hnd).1
      obtain ⟨l, hl, hk⟩ := ih (acc ++ [(n, tp)]) (List.nodup_cons.mp hnd).2
        (fun m hm2 => hgood m (by simp [hm2]))
        (by
          intro m hm2
          have hne : ¬(n = m) := fun h => hn_rest (h ▸ hm2)
          simp [List.any_append, hacc m (by simp [hm2]), hne])
      refine ⟨l, ?_, ?_⟩
      · simp only [buildTdGo, hf, htp, hins]
        exact hl
      · rw [hk]
        simp

/-! ## Claim theorems -/

/-- C1 (amended): teardown suppresses a TimeoutError raised by the bounded
completion wait and every error raised by the delete request; whenever the
wait is skipped (results already begun), returns normally, or fails with
TimeoutError, exactly one delete call is attempted and teardown returns
normally regardless of the delete outcome.  But when the wait fails with
any non-timeout error (for example the unexpected-job-state RuntimeError
for a Failed job), that error escapes teardown and no delete call is
attempted. -/
theorem C1_teardown (timeout : Option Nat) (states : List String)
    (d : Except Err Unit) :
    (aexitSim true timeout states d = some ⟨none, 1⟩) ∧
    ((awaitComplete timeout states).outcome = some (.ok ()) →
      aexitSim false timeout states d = some ⟨none, 1⟩) ∧
    ((awaitComplete timeout states).outcome = some (.error .timeout) →
      aexitSim false timeout states d = some ⟨none, 1⟩) ∧
    (∀ e, e ≠ Err.timeout →
      (awaitComplete timeout states).outcome = some (.error e) →
      aexitSim false timeout states d = some ⟨some e, 0⟩) := by
  refine ⟨rfl, ?_, ?_, ?_⟩
  · intro h; simp [aexitSim, h]
  · intro h; simp [aexitSim, h]
  · intro e he h
    cases e <;> simp_all [aexitSim]

theorem C1_teardown_witness :
    aexitSim true none [] (.error .notFound) = some ⟨none, 1⟩ ∧
    aexitSim false none ["JobComplete"] (.error .notFound) = some ⟨none, 1⟩ ∧
    aexitSim false (some 1) ["InProgress", "InProgress"] (.error .notFound) =
      some ⟨none, 1⟩ ∧
    aexitSim false none ["Aborted"] (.ok ()) =
      some ⟨some (.runtime "unexpected job state: Aborted"), 0⟩ :=
  ⟨(C1_teardown none [] (.error .notFound)).1,
   (C1_teardown none ["JobComplete"] (.error .notFound)).2.1 (by decide),
   (C1_teardown (some 1) ["InProgress", "InProgress"] (.error .notFound)).2.2.1
     (by decide),
   (C1_teardown none ["Aborted"] (.ok ())).2.2.2 _ (by decide) (by decide)⟩

/-- C1 counterexample: for a job observed in state Failed before results
were begun, `__aexit__` lets the unexpected-job-state RuntimeError escape
and attempts zero delete calls — it neither returns normally nor attempts
exactly one delete, even though the delete outcome was also an error. -/
theorem C1_teardown_counterexample :
    aexitSim false (some 5) ["Failed"] (.error .notFound) =
      some ⟨some (.runtime "unexpected job state: Failed"), 0⟩ ∧
    (⟨some (.runtime "unexpected job state: Failed"), 0⟩ : ExitResult).deleteCalls
      ≠ 1 := by
  decide

/-- C2: `Client.request` sends at most two HTTP attempts per call.  A
first-attempt 401 discards the held credential, re-authenticates and
resends exactly once; a second 401 is surfaced with no third attempt (the
result is UnauthorizedError after exactly two attempts).  Starting with no
credential, a 401-then-2xx sequence succeeds with exactly two authenticate
invocations. -/
theorem C2_request (auth : Nat → Token) (resp : Nat → Nat)
    (token0 : Option Token) :
    (requestSim auth resp token0).attempts ≤ 2 ∧
    (resp 0 = 401 → resp 1 = 401 →
      (requestSim auth resp token0).result = .error .unauthorized ∧
      (requestSim auth resp token0).attempts = 2) ∧
    (resp 0 = 401 → 200 ≤ resp 1 → resp 1 ≤ 299 →
      requestSim auth resp none = ⟨.ok (resp 1), 2, 2, some (auth 1)⟩) := by
  have h401 : classifyStatus 401 = .error .unauthorized := by decide
  refine ⟨?_, ?_, ?_⟩
  · unfold requestSim
    rcases h0 : classifyStatus (resp 0) with e | s
    · cases e <;> simp
      rcases h1 : classifyStatus (resp 1) with e | s <;> simp
    · simp
  · intro h0 h1
    unfold requestSim
    rw [h0, h1, h401]
    exact ⟨rfl, rfl⟩
  · intro h0 h200 h299
    have hc1 : classifyStatus (resp 1) = .ok (resp 1) := by
      unfold classifyStatus
      rw [if_neg (by omega), if_pos (by omega)]
    unfold requestSim
    rw [h0, h401, hc1]

theorem C2_request_witness :
    requestSim (fun _ => ⟨"t", "b"⟩) (fun i => if i = 0 then 401 else 200) none =
      ⟨.ok 200, 2, 2, some ⟨"t", "b"⟩⟩ ∧
    (requestSim (fun _ => ⟨"t", "b"⟩) (fun _ => 401) none).result =
      .error .unauthorized ∧
    (requestSim (fun _ => ⟨"t", "b"⟩) (fun _ => 401) none).attempts = 2 := by
  have h1 := (C2_request (fun _ => ⟨"t", "b"⟩)
    (fun i => if i = 0 then 401 else 200) none).2.2 rfl (by decide) (by decide)
  have h2 := (C2_request (fun _ => ⟨"t", "b"⟩) (fun _ => 401) none).2.1 rfl rfl
  exact ⟨h1, h2.1, h2.2⟩

/-- C3 (amended): `_next_page` pops the first row of every fetched page
(not only the first page) to establish the decode codec, so the first row
of every page is consumed and not yielded.  For a job whose first page
holds a header row plus two data rows with cursor `c` and whose second
page holds one row and no cursor, iteration yields exactly the two data
rows of page one, decoded against the page-one header, and then ends —
the single row of page two is consumed as that page's header. -/
theorem C3_pages (h r1 r2 hdr2 : List String) (c : String) :
    runIter (twoPageFetch [h, r1, r2] c [hdr2]) none ["JobComplete"] 6
      initIterState = some (.ok [decodeRec h r1, decodeRec h r2]) := by
  simp [runIter, anext, awaitComplete, awaitAux, nextPage, twoPageFetch,
    initIterState, isIncomplete]

/-- C3 counterexample: the claimed scenario — page one with cursor "A" and
2 rows, page two with no cursor and 1 row — yields 1 decoded record, not
3; and under the reading where the 2 rows of page one follow its header
row, it yields 2 decoded records, still not 3.  In both runs the first
row of page two is consumed as a header instead of being yielded. -/
theorem C3_pages_counterexample :
    runIter (twoPageFetch [["Id", "Name"], ["001", "Acme"]] "A"
        [["002", "Bee"]]) none ["JobComplete"] 10 initIterState =
      some (.ok [[("Id", "001"), ("Name", "Acme")]]) ∧
    ([[("Id", "001"), ("Name", "Acme")]] :
      List (List (String × String))).length ≠ 3 ∧
    runIter (twoPageFetch [["Id", "Name"], ["001", "Acme"], ["002", "Bee"]]
        "A" [["Id", "Name"]]) none ["JobComplete"] 10 initIterState =
      some (.ok [[("Id", "001"), ("Name", "Acme")],
                 [("Id", "002"), ("Name", "Bee")]]) ∧
    ([[("Id", "001"), ("Name", "Acme")], [("Id", "002"), ("Name", "Bee")]] :
      List (List (String × String))).length ≠ 3 := by
  decide

/-- C4 (code bug evaluated at the failing input): when the Sforce-Locator
response header is absent, `QueryResource.results` raises AttributeError
(from `None.encode()`) instead of returning a page with no cursor; the
literal "null" header does yield cursor `none`, and any other header value
is carried verbatim as the cursor. -/
theorem C4_locator :
    resultsEndpoint 200 [["Id", "Name"]] none = .error .attributeError ∧
    resultsEndpoint 200 [["Id", "Name"]] (some "null") =
      .ok ⟨[["Id", "Name"]], none⟩ ∧
    resultsEndpoint 200 [["Id", "Name"]] (some "locA") =
      .ok ⟨[["Id", "Name"]], some "locA"⟩ := by
  decide

/-- C5: for a job polled in incomplete states (UploadComplete or
InProgress) n times before a first non-incomplete poll, `_await_complete`
with no deadline waits exactly min(2^i, 60) time units before the
(i+2)-th poll — the sequence 1, 2, 4, 8, 16, 32, 60, 60, ... — and stops
immediately at the first non-incomplete poll: JobComplete returns
normally, anything else raises the unexpected-job-state RuntimeError
carrying the observed state string. -/
theorem C5_backoff (pre : List String) (s : String) (rest : List String)
    (hpre : ∀ x ∈ pre, isIncomplete x = true) (hs : isIncomplete s = false) :
    awaitComplete none (pre ++ s :: rest) =
      ⟨some (if s = "JobComplete" then .ok ()
             else .error (.runtime ("unexpected job state: " ++ s))),
       (List.range pre.length).map (fun i => min (2 ^ i) 60)⟩ := by
  have h := awaitAux_backoff pre 0 0 s rest hpre hs
  rw [awaitComplete, show (1 : Nat) = min (2 ^ 0) 60 from rfl, h]
  have hz : (fun i => min (2 ^ (0 + i)) 60) = (fun i : Nat => min (2 ^ i) 60) := by
    funext i
    rw [Nat.zero_add]
  rw [hz]

theorem C5_backoff_witness :
    awaitComplete none
        ["InProgress", "InProgress", "UploadComplete", "InProgress",
         "InProgress", "InProgress", "InProgress", "InProgress", "InProgress",
         "Aborted"] =
      ⟨some (.error (.runtime "unexpected job state: Aborted")),
       [1, 2, 4, 8, 16, 32, 60, 60, 60]⟩ :=
  (C5_backoff
    ["InProgress", "InProgress", "UploadComplete", "InProgress", "InProgress",
     "InProgress", "InProgress", "InProgress", "InProgress"] "Aborted" []
    (by decide) (by decide)).trans (by decide)

/-- C6: with a configured deadline t (0 < t) and a job that stays
incomplete for longer than the deadline, `_await_complete` raises
TimeoutError once the elapsed polling time has reached t; every wait was
started while the elapsed time was still below t (so the deadline is
exceeded by less than one backoff interval) and every backoff interval is
at most 60 time units. -/
theorem C6_deadline (t : Nat) (states : List String) (ht : 0 < t)
    (hinc : ∀ x ∈ states, isIncomplete x = true) (hlen : t < states.length) :
    (awaitComplete (some t) states).outcome = some (.error .timeout) ∧
    t ≤ (awaitComplete (some t) states).sleeps.sum ∧
    (∀ k, k < (awaitComplete (some t) states).sleeps.length →
      ((awaitComplete (some t) states).sleeps.take k).sum < t) ∧
    (∀ x ∈ (awaitComplete (some t) states).sleeps, x ≤ 60) := by
  have h := awaitAux_timeout states t 0 1 hinc (by omega) (by omega) ht
    (by omega)
  rw [awaitComplete]
  refine ⟨h.1, by have := h.2.1; omega, ?_, h.2.2.2⟩
  intro k hk
  have := h.2.2.1 k hk
  omega

theorem C6_deadline_witness :
    (awaitComplete (some 3) (List.replicate 5 "InProgress")).outcome =
      some (.error .timeout) ∧
    3 ≤ (awaitComplete (some 3) (List.replicate 5 "InProgress")).sleeps.sum :=
  ⟨(C6_deadline 3 (List.replicate 5 "InProgress") (by decide) (by decide)
      (by decide)).1,
   (C6_deadline 3 (List.replicate 5 "InProgress") (by decide) (by decide)
      (by decide)).2.1⟩

/-- C7: the schema construction in `SObjectQuery.__init__` fails for every
empty requested field list, for every request containing a name absent
from the catalog, and for every request containing a field of excluded
composite type (address or location); every non-empty duplicate-free
request avoiding those conditions succeeds and produces exactly one schema
entry per requested field, in request order. -/
theorem C7_schema :
    (∀ sfields : List FieldMeta, buildSchema sfields (some []) =
      .error (.valueError "you must query at least one field")) ∧
    (∀ (sfields : List FieldMeta) (fields : List String) (n : String),
      n ∈ fields → indexedLookup sfields n = none →
      ∀ r, buildSchema sfields (some fields) ≠ .ok r) ∧
    (∀ (sfields : List FieldMeta) (fields : List String) (n : String)
      (f : FieldMeta), n ∈ fields → indexedLookup sfields n = some f →
      f.type ∈ excludeTypes → ∀ r, buildSchema sfields (some fields) ≠ .ok r) ∧
    (∀ (sfields : List FieldMeta) (fields : List String), fields ≠ [] →
      fields.Nodup →
      (∀ n ∈ fields, ∃ f, indexedLookup sfields n = some f ∧
        f.type ∉ excludeTypes ∧ (typeMappings f.type).isSome) →
      ∃ l, buildSchema sfields (some fields) = .ok l ∧
        l.map Prod.fst = fields) := by
  refine ⟨fun sfields => rfl, ?_, ?_, ?_⟩
  · intro sfields fields n hn hnone r
    have hne : fields.length ≠ 0 := by
      cases fields with
      | nil => simp at hn
      | cons a l => simp
    obtain ⟨e, he⟩ := checkFields_err sfields fields n hn (Or.inl hnone)
    simp [buildSchema, hne, he]
  · intro sfields fields n f hn hf hex r
    have hne : fields.length ≠ 0 := by
      cases fields with
      | nil => simp at hn
      | cons a l => simp
    obtain ⟨e, he⟩ := checkFields_err sfields fields n hn (Or.inr ⟨f, hf, hex⟩)
    simp [buildSchema, hne, he]
  · intro sfields fields hne hnd hgood
    have hlen : fields.length ≠ 0 := fun h => hne (List.length_eq_zero.mp h)
    have hc : checkFields sfields fields = .ok () :=
      checkFields_ok sfields fields
        (fun n hn => (hgood n hn).elim fun f hf => ⟨f, hf.1, hf.2.1⟩)
    obtain ⟨l, hl, hk⟩ := buildTdGo_ok sfields fields [] hnd
      (fun n hn => (hgood n hn).elim fun f hf => ⟨f, hf.1, hf.2.2⟩)
      (fun n _ => rfl)
    refine ⟨l, ?_, by simpa using hk⟩
    simp only [buildSchema, buildTd, hlen, hc, if_neg hlen]
    exact hl

theorem C7_schema_witness :
    buildSchema
        [⟨"Id", "id", 18, false⟩, ⟨"Name", "string", 80, true⟩,
         ⟨"Mailing", "address", 0, true⟩] (some []) =
      .error (.valueError "you must query at least one field") ∧
    buildSchema
        [⟨"Id", "id", 18, false⟩, ⟨"Name", "string", 80, true⟩,
         ⟨"Mailing", "address", 0, true⟩] (some ["Nope"]) ≠ .ok [] ∧
    buildSchema
        [⟨"Id", "id", 18, false⟩, ⟨"Name", "string", 80, true⟩,
         ⟨"Mailing", "address", 0, true⟩] (some ["Mailing"]) ≠ .ok [] ∧
    (buildSchema
        [⟨"Id", "id", 18, false⟩, ⟨"Name", "string", 80, true⟩,
         ⟨"Mailing", "address", 0, true⟩] (some ["Id", "Name"])).map
      (fun l => l.map Prod.fst) = .ok ["Id", "Name"] := by
  refine ⟨C7_schema.1 _,
    C7_schema.2.1 _ _ "Nope" (by decide) (by decide) [],
    C7_schema.2.2.1 _ _ "Mailing" ⟨"Mailing", "address", 0, true⟩ (by decide)
      (by decide) (by decide) [],
    ?_⟩
  obtain ⟨l, hl, hk⟩ := C7_schema.2.2.2
    [⟨"Id", "id", 18, false⟩, ⟨"Name", "string", 80, true⟩,
     ⟨"Mailing", "address", 0, true⟩] ["Id", "Name"] (by decide) (by decide)
    (by
      intro n hn
      rcases List.mem_cons.mp hn with rfl | hn2
      · exact ⟨⟨"Id", "id", 18, false⟩, by decide, by decide, by decide⟩
      · rcases List.mem_cons.mp hn2 with rfl | hn3
        · exact ⟨⟨"Name", "string", 80, true⟩, by decide, by decide, by decide⟩
        · simp at hn3)
  rw [hl]
  simp [Except.map, hk]

/-- C8 (amended): for every catalog field accepted into a schema,
`sobject_field_type` returns a nullable (Optional) type regardless of the
declared `nillable` flag, and it attaches a maximum-length constraint
exactly when the catalog entry declares a nonzero length — whatever the
field type, not only for string-like types. -/
theorem C8_field_type :
    (∀ (f : FieldMeta) (py : PyType), sobject_field_type f = .ok py →
      py.nullable = true ∧
      py.maxLen = if f.length ≠ 0 then some f.length else none) ∧
    (∀ (f : FieldMeta) (b : Bool),
      sobject_field_type ⟨f.name, f.type, f.length, b⟩ = sobject_field_type f) := by
  constructor
  · intro f py h
    unfold sobject_field_type at h
    cases hm : typeMappings f.type with
    | none => rw [hm] at h; exact absurd h (by simp)
    | some t =>
        rw [hm] at h
        injection h with h
        subst h
        exact ⟨rfl, rfl⟩
  · intro f b; rfl

theorem C8_field_type_witness :
    (⟨SemType.str, some 80, true⟩ : PyType).nullable = true ∧
    (⟨SemType.str, some 80, true⟩ : PyType).maxLen =
      if (80 : Nat) ≠ 0 then some (80 : Nat) else none :=
  C8_field_type.1 ⟨"Name", "string", 80, false⟩ ⟨SemType.str, some 80, true⟩
    (by decide)

/-- C8 counterexample: a field of semantic type int (not string-like)
with declared length 5 is accepted and still receives a maximum-length
constraint, so the constraint is not attached exactly for bounded
string-like types. -/
theorem C8_field_type_counterexample :
    sobject_field_type ⟨"Points", "int", 5, false⟩ =
      .ok ⟨SemType.int, some 5, true⟩ ∧
    specStringLike SemType.int = false := by
  decide

/-- C9: a timeout of 0 is falsy in `if self.timeout and ...`, so it
disables the deadline entirely: `_await_complete` with timeout 0 behaves
exactly as with no timeout configured, and over any finite trace of
incomplete states it keeps polling and never raises TimeoutError. -/
theorem C9_timeout_zero :
    (∀ states, awaitComplete (some 0) states = awaitComplete none states) ∧
    (∀ states, (∀ x ∈ states, isIncomplete x = true) →
      (awaitComplete (some 0) states).outcome = none) := by
  constructor
  · intro states; exact awaitAux_some_zero states 0 1
  · intro states h
    rw [awaitComplete, awaitAux_some_zero]
    exact awaitAux_all_incomplete states h 0 1

theorem C9_timeout_zero_witness :
    (awaitComplete (some 0) ["InProgress", "UploadComplete", "InProgress"]).outcome
      = none :=
  C9_timeout_zero.2 ["InProgress", "UploadComplete", "InProgress"] (by decide)

/-- C10: `_next_page` unconditionally pops the first row of the fetched
page to build the decode codec, so any fetch returning a page with an
empty items list fails with IndexError (popleft on an empty deque) rather
than ending the sequence gracefully. -/
theorem C10_empty_page (fetch : Option String → Page) (st : IterState)
    (h : (fetch st.cursor).items = []) :
    nextPage fetch st = .error .indexError := by
  simp only [nextPage, h]

theorem C10_empty_page_witness :
    nextPage (fun _ => ⟨[], some "L"⟩) initIterState = .error .indexError :=
  C10_empty_page (fun _ => ⟨[], some "L"⟩) initIterState rfl

end FondatSalesforce
